import Mathlib

/-!
Verification of the streaming event-reduction engine of the `codexia`
desktop chat client (`src/hooks/useCodexEvents.ts`, delivered as
`src/unnamed/part_001`).

The engine is shallowly embedded: the React `useRef` cells of the hook
become fields of an explicit `HState` record, the calls into the external
conversation store (`addMessage`, `updateMessage`, `setSessionLoading`)
become an emitted list of `Intent` values, and `Date.now()` becomes a
monotone `clock : Nat` threaded through the state.  JavaScript `Map`s are
modelled as association lists with JS `set`/`get`/`delete` semantics, the
per-channel flush-flag `Map`s as lists of keys (the timer handle stored as
the value is an environment token with no observable content), and the
`shownDiffs : Set<string>` as a list of strings with membership testing.

Notes on fidelity to the source:
* `currentStreamingMessageId` is only ever assigned `null` anywhere in the
  hook, so it is carried as an `Option String` field and every branch of
  the source that tests it is modelled; the legacy
  `streamController.current.finalize(true)` call sits under that test and
  the `StreamController` class itself (imported from
  `@/utils/streamController`, absent from the snapshot) touches only its
  own internal state, so no transcript intent is modelled for it.
* `new TextDecoder().decode(bytes)` uses the default **non-fatal** WHATWG
  decoder, which never throws: each maximal malformed subpart of the input
  is replaced by U+FFFD.  It is embedded as the total function
  `utf8Decode : List Nat → String` implementing that replacement
  behaviour, so the source's `try { ... } catch { ... }` collapses to its
  try branch — the catch-branch fallback `(msg.chunk || []).join(',')`
  (kept here as `commaJoin`) is dead code, since `new Uint8Array(...)` on
  a numeric array cannot throw either.
-/

namespace Codexia

/-- A live stream record, `{ messageId: string; buffer: string }` in the
source (`agentStreams` / `reasoningStreams` / `execStreams` map values). -/
structure StreamSt where
  messageId : String
  buffer : String
deriving Repr, DecidableEq

/-- Association list standing in for a JavaScript `Map<string, StreamSt>`. -/
abbrev SMap := List (String × StreamSt)

/-- JS `map.get(k)` — first binding wins, as JS maps have unique keys. -/
def mget (m : SMap) (k : String) : Option StreamSt :=
  match m with
  | [] => none
  | (a, w) :: t => if a == k then some w else mget t k

/-- JS `map.set(k, v)` — replace the binding in place if the key is present
(JS maps hold at most one binding per key), else append. -/
def mset (m : SMap) (k : String) (v : StreamSt) : SMap :=
  match m with
  | [] => [(k, v)]
  | (a, w) :: t => if a == k then (k, v) :: t else (a, w) :: mset t k v

/-- JS `map.delete(k)`: remove the key's binding. -/
def mdel (m : SMap) (k : String) : SMap :=
  match m with
  | [] => []
  | (a, w) :: t => if a == k then mdel t k else (a, w) :: mdel t k

/-- The channels that own a flush-flag map in the source
(`agentFlush` / `reasoningFlush`). -/
inductive Channel where
  | agent
  | reasoning
deriving Repr, DecidableEq

/-- The closed union of event payloads the dispatcher switches on
(`msg.type` in `handleCodexEvent`); tags the hook ignores or only logs are
collapsed into `other`. -/
inductive CodexMsg where
  | session_configured (session_id : String)
  | turn_started
  | task_started
  | task_complete
  | turn_complete
  | turn_aborted
  | agent_message (message : String)
  | agent_message_delta (delta : String)
  | agent_reasoning_delta (delta : String)
  | agent_reasoning (text : String)
  | agent_reasoning_section_break
  | plan_update (plan : List (String × String))
  | turn_diff (unified_diff : String)
  | exec_command_begin (call_id : String) (command : List String) (cwd : String)
  | exec_command_output_delta (call_id : String) (chunk : List Nat)
  | exec_command_end (call_id : String) (exit_code : Int)
  | patch_apply_begin
  | patch_apply_end (success : Bool)
  | error (message : String)
  | shutdown_complete
  | other
deriving Repr, DecidableEq

/-- The envelope `{ id, msg }` delivered to `handleCodexEvent`. -/
structure CodexEvent where
  id : String
  msg : CodexMsg
deriving Repr, DecidableEq

/-- One call issued to an external collaborator: a transcript append
(`addMessageToStore`, recording the `ChatMessage`'s id, type, content and
streaming flag), a transcript update-by-id (`updateMessage`, with the
partial fields actually passed), or a loading-flag write
(`setSessionLoading`). -/
inductive Intent where
  | addMessage (id : String) (mtype : String) (content : String) (isStreaming : Bool)
  | updateMessage (id : String) (content : Option String) (isStreaming : Option Bool)
  | setLoading (loading : Bool)
deriving Repr, DecidableEq

/-- The mutable refs of the hook, gathered into one record; `clock` stands
for `Date.now()` and advances once per fresh id drawn. -/
structure HState where
  agentStreams : SMap
  reasoningStreams : SMap
  execStreams : SMap
  agentFlush : List String
  reasoningFlush : List String
  shownDiffs : List String
  currentStreamingMessageId : Option String
  currentStreamingBuffer : String
  clock : Nat
deriving Repr, DecidableEq

/-- The state of the refs at mount. -/
def initState : HState :=
  { agentStreams := []
    reasoningStreams := []
    execStreams := []
    agentFlush := []
    reasoningFlush := []
    shownDiffs := []
    currentStreamingMessageId := none
    currentStreamingBuffer := ""
    clock := 0 }

/-- Source `scheduleFlush(which, id)`: no-op when a flush is already pending for
the key; otherwise register the key.  (The `requestAnimationFrame` handle
stored in the map carries no observable content; firing the callback is
the separate transition `fireFlush`.) -/
def scheduleFlush (which : Channel) (id : String) (s : HState) : HState :=
  match which with
  | Channel.agent =>
      if s.agentFlush.contains id then s
      else { s with agentFlush := id :: s.agentFlush }
  | Channel.reasoning =>
      if s.reasoningFlush.contains id then s
      else { s with reasoningFlush := id :: s.reasoningFlush }

/-- The body of the callback `scheduleFlush` hands to
`requestAnimationFrame`: drop the flag, then write the stream's *current*
buffer (if the stream still exists) via `updateMessage`. -/
def fireFlush (which : Channel) (id : String) (s : HState) :
    HState × List Intent :=
  match which with
  | Channel.agent =>
      let s1 := { s with agentFlush := s.agentFlush.filter (· != id) }
      match mget s1.agentStreams id with
      | some st => (s1, [Intent.updateMessage st.messageId (some st.buffer) none])
      | none => (s1, [])
  | Channel.reasoning =>
      let s1 := { s with reasoningFlush := s.reasoningFlush.filter (· != id) }
      match mget s1.reasoningStreams id with
      | some st => (s1, [Intent.updateMessage st.messageId (some st.buffer) none])
      | none => (s1, [])

/-- Whether a byte is a UTF-8 continuation byte `10xxxxxx`. -/
def isContByte (b : Nat) : Bool := 0x80 ≤ b && b < 0xC0

/-- The replacement character U+FFFD emitted by the non-fatal decoder for
each maximal malformed subpart. -/
def replChar : Char := Char.ofNat 0xFFFD

/-- Lower bound of the first continuation byte after a 3- or 4-byte lead
(the WHATWG UTF-8 decoder's boundary adjustment for `0xE0`/`0xF0`). -/
def contLo (lead : Nat) : Nat :=
  if lead == 0xE0 then 0xA0 else if lead == 0xF0 then 0x90 else 0x80

/-- Upper bound of the first continuation byte after a 3- or 4-byte lead
(the WHATWG UTF-8 decoder's boundary adjustment for `0xED`/`0xF4`). -/
def contHi (lead : Nat) : Nat :=
  if lead == 0xED then 0x9F else if lead == 0xF4 then 0x8F else 0xBF

/-- Non-fatal WHATWG UTF-8 decoding, fuelled: never fails; every maximal
malformed subpart (including a truncated sequence at end of input) yields
one U+FFFD, and a byte that breaks a sequence is reprocessed from the
initial state, exactly as in the standard's decoder with error mode
*replacement*.  The fuel only serves Lean's termination checker: every
step consumes at least one input byte, so fuel equal to the input length
(as supplied by `utf8Chars`) never runs out. -/
def utf8CharsAux : Nat → List Nat → List Char
  | _, [] => []
  | 0, _ :: _ => []
  | fuel + 1, b :: rest =>
    if b ≤ 0x7F then Char.ofNat b :: utf8CharsAux fuel rest
    else if 0xC2 ≤ b ∧ b ≤ 0xDF then
      match rest with
      | b1 :: rest1 =>
        if isContByte b1 then
          Char.ofNat ((b - 0xC0) * 64 + (b1 - 0x80)) :: utf8CharsAux fuel rest1
        else replChar :: utf8CharsAux fuel (b1 :: rest1)
      | [] => [replChar]
    else if 0xE0 ≤ b ∧ b ≤ 0xEF then
      match rest with
      | b1 :: rest1 =>
        if contLo b ≤ b1 ∧ b1 ≤ contHi b then
          match rest1 with
          | b2 :: rest2 =>
            if isContByte b2 then
              Char.ofNat ((b - 0xE0) * 4096 + (b1 - 0x80) * 64 + (b2 - 0x80))
                :: utf8CharsAux fuel rest2
            else replChar :: utf8CharsAux fuel (b2 :: rest2)
          | [] => [replChar]
        else replChar :: utf8CharsAux fuel (b1 :: rest1)
      | [] => [replChar]
    else if 0xF0 ≤ b ∧ b ≤ 0xF4 then
      match rest with
      | b1 :: rest1 =>
        if contLo b ≤ b1 ∧ b1 ≤ contHi b then
          match rest1 with
          | b2 :: rest2 =>
            if isContByte b2 then
              match rest2 with
              | b3 :: rest3 =>
                if isContByte b3 then
                  Char.ofNat ((b - 0xF0) * 262144 + (b1 - 0x80) * 4096
                    + (b2 - 0x80) * 64 + (b3 - 0x80)) :: utf8CharsAux fuel rest3
                else replChar :: utf8CharsAux fuel (b3 :: rest3)
              | [] => [replChar]
            else replChar :: utf8CharsAux fuel (b2 :: rest2)
          | [] => [replChar]
        else replChar :: utf8CharsAux fuel (b1 :: rest1)
      | [] => [replChar]
    else replChar :: utf8CharsAux fuel rest

/-- Non-fatal WHATWG UTF-8 decoding of a byte list to characters. -/
def utf8Chars (bs : List Nat) : List Char :=
  utf8CharsAux bs.length bs

/-- Source `new TextDecoder().decode(new Uint8Array(chunk))` — the
default non-fatal decoder: total, never throws.  The `Uint8Array`
construction wraps each element modulo 256. -/
def utf8Decode (bytes : List Nat) : String :=
  String.mk (utf8Chars (bytes.map (· % 256)))

/-- The turn-diff rendering: the raw diff wrapped in a fenced diff code
block with a newline on each side. -/
def diffContent (raw : String) : String :=
  "```diff\n" ++ raw ++ "\n```"

/-- The exec-begin header: optional `cwd:` line, then the `$ cmd` line,
then a trailing newline (`headerLines.join('\n') + '\n'`). -/
def execHeader (command : List String) (cwd : String) : String :=
  let cmd := String.intercalate " " command
  let headerLines := (if cwd != "" then ["cwd: " ++ cwd] else []) ++ ["$ " ++ cmd]
  String.intercalate "\n" headerLines ++ "\n"

/-- Fresh transcript-entry id, standing for
`` `${sessionId}-<tag>-${Date.now()}` ``. -/
def freshId (sessionId tag : String) (clock : Nat) : String :=
  sessionId ++ "-" ++ tag ++ "-" ++ toString clock

/-- Plan-update rendering: one `- [${p.status}] ${p.step}` line per step
under the `Plan update:` header, joined by newlines. -/
def planContent (plan : List (String × String)) : String :=
  String.intercalate "\n"
    ("Plan update:" :: plan.map (fun p => "- [" ++ p.1 ++ "] " ++ p.2))

/-- The `switch (msg.type)` body of `handleCodexEvent`, as a pure
transition: given the session id, one event and the current ref state, it
returns the new ref state and the calls made into the store, in program
order. -/
def handleCodexEvent (sessionId : String) (event : CodexEvent) (s : HState) :
    HState × List Intent :=
  match event.msg with
  | CodexMsg.session_configured _ => (s, [])
  | CodexMsg.turn_started =>
      ({ s with currentStreamingMessageId := none
                currentStreamingBuffer := ""
                shownDiffs := [] },
       [Intent.setLoading true])
  | CodexMsg.task_started =>
      ({ s with currentStreamingMessageId := none },
       [Intent.setLoading true])
  | CodexMsg.task_complete =>
      ({ s with currentStreamingMessageId := none },
       [Intent.setLoading false])
  | CodexMsg.turn_complete =>
      ({ s with currentStreamingMessageId := none
                shownDiffs := [] },
       [Intent.setLoading false])
  | CodexMsg.turn_aborted =>
      let mid := freshId sessionId "turn-abort" s.clock
      ({ s with currentStreamingMessageId := none
                currentStreamingBuffer := ""
                shownDiffs := []
                clock := s.clock + 1 },
       [Intent.addMessage mid "system" "Turn aborted" false,
        Intent.setLoading false])
  | CodexMsg.agent_message message =>
      let id := event.id
      let text := message
      if text == "" then (s, [])
      else
        match mget s.agentStreams id with
        | none =>
            let mid := freshId sessionId "agent" s.clock
            ({ s with agentStreams := mset s.agentStreams id ⟨mid, text⟩
                      clock := s.clock + 1 },
             [Intent.addMessage mid "agent" text false])
        | some existing =>
            if text != existing.buffer then
              let mid := freshId sessionId "agent" s.clock
              ({ s with agentStreams := mset s.agentStreams id ⟨mid, text⟩
                        clock := s.clock + 1 },
               [Intent.addMessage mid "agent" text false])
            else (s, [])
  | CodexMsg.agent_message_delta delta =>
      let id := event.id
      let (s1, st, out1) :=
        match mget s.agentStreams id with
        | some st => (s, st, ([] : List Intent))
        | none =>
            let mid := freshId sessionId "agent" s.clock
            let st : StreamSt := ⟨mid, ""⟩
            ({ s with agentStreams := mset s.agentStreams id st
                      clock := s.clock + 1 },
             st,
             [Intent.addMessage mid "agent" "" true])
      if delta != "" then
        let st2 : StreamSt := ⟨st.messageId, st.buffer ++ delta⟩
        let s2 := { s1 with agentStreams := mset s1.agentStreams id st2 }
        (scheduleFlush Channel.agent id s2, out1)
      else (s1, out1)
  | CodexMsg.agent_reasoning_delta delta =>
      let id := event.id
      let (s1, st, out1) :=
        match mget s.reasoningStreams id with
        | some st => (s, st, ([] : List Intent))
        | none =>
            let mid := freshId sessionId "reasoning" s.clock
            let st : StreamSt := ⟨mid, ""⟩
            ({ s with reasoningStreams := mset s.reasoningStreams id st
                      clock := s.clock + 1 },
             st,
             [Intent.addMessage mid "agent" "" true])
      if delta != "" then
        let st2 : StreamSt := ⟨st.messageId, st.buffer ++ delta⟩
        let s2 := { s1 with reasoningStreams := mset s1.reasoningStreams id st2 }
        (scheduleFlush Channel.reasoning id s2, out1)
      else (s1, out1)
  | CodexMsg.agent_reasoning text =>
      let id := event.id
      match mget s.reasoningStreams id with
      | some st =>
          let buf := if text == "" then st.buffer else text
          ({ s with reasoningStreams := mdel s.reasoningStreams id },
           [Intent.updateMessage st.messageId (some buf) (some false),
            Intent.setLoading false])
      | none =>
          if text != "" then
            let mid := freshId sessionId "reasoning" s.clock
            ({ s with clock := s.clock + 1 },
             [Intent.addMessage mid "agent" text false,
              Intent.setLoading false])
          else (s, [Intent.setLoading false])
  | CodexMsg.agent_reasoning_section_break =>
      let id := event.id
      match mget s.reasoningStreams id with
      | some st =>
          let st2 : StreamSt := ⟨st.messageId, st.buffer ++ "\n\n"⟩
          ({ s with reasoningStreams := mset s.reasoningStreams id st2 },
           [Intent.updateMessage st.messageId (some st2.buffer) none])
      | none => (s, [])
  | CodexMsg.plan_update plan =>
      let mid := freshId sessionId "plan" s.clock
      ({ s with clock := s.clock + 1 },
       [Intent.addMessage mid "system" (planContent plan) false])
  | CodexMsg.turn_diff raw =>
      if raw == "" then (s, [])
      else if s.shownDiffs.contains raw then (s, [])
      else
        let mid := freshId sessionId "diff" s.clock
        ({ s with shownDiffs := raw :: s.shownDiffs
                  clock := s.clock + 1 },
         [Intent.addMessage mid "system" (diffContent raw) false])
  | CodexMsg.exec_command_begin callId command cwd =>
      let content := execHeader command cwd
      let mid := freshId sessionId ("exec-" ++ callId) s.clock
      ({ s with execStreams := mset s.execStreams callId ⟨mid, content⟩
                clock := s.clock + 1 },
       [Intent.addMessage mid "system" content true,
        Intent.setLoading true])
  | CodexMsg.exec_command_output_delta callId chunk =>
      match mget s.execStreams callId with
      | some st =>
          let text := utf8Decode chunk
          let next := st.buffer ++ text
          ({ s with execStreams := mset s.execStreams callId ⟨st.messageId, next⟩ },
           [Intent.updateMessage st.messageId (some next) none])
      | none => (s, [])
  | CodexMsg.exec_command_end callId exitCode =>
      match mget s.execStreams callId with
      | some st =>
          let next := st.buffer ++ "\nexit " ++ toString exitCode
          ({ s with execStreams := mdel s.execStreams callId },
           [Intent.updateMessage st.messageId (some next) (some false),
            Intent.setLoading false])
      | none => (s, [Intent.setLoading false])
  | CodexMsg.patch_apply_begin =>
      let mid := freshId sessionId "patch-begin" s.clock
      ({ s with clock := s.clock + 1 },
       [Intent.addMessage mid "system" "Applying patch…" false,
        Intent.setLoading true])
  | CodexMsg.patch_apply_end success =>
      let ok := if success then "ok" else "failed"
      let mid := freshId sessionId "patch-end" s.clock
      ({ s with clock := s.clock + 1 },
       [Intent.addMessage mid "system" ("Patch apply " ++ ok) false,
        Intent.setLoading false])
  | CodexMsg.error message =>
      let mid := freshId sessionId "error" s.clock
      ({ s with clock := s.clock + 1 },
       [Intent.addMessage mid "system" ("Error: " ++ message) false,
        Intent.setLoading false])
  | CodexMsg.shutdown_complete =>
      ({ s with currentStreamingMessageId := none }, [])
  | CodexMsg.other => (s, [])

/-- Fold a list of events through the handler, accumulating intents in
emission order. -/
def handleEvents (sessionId : String) (events : List CodexEvent) (s : HState) :
    HState × List Intent :=
  match events with
  | [] => (s, [])
  | e :: rest =>
      let (s1, out1) := handleCodexEvent sessionId e s
      let (s2, out2) := handleEvents sessionId rest s1
      (s2, out1 ++ out2)

/-- Number of transcript appends in an intent list. -/
def countAdds (out : List Intent) : Nat :=
  (out.filter (fun i => match i with
    | Intent.addMessage _ _ _ _ => true
    | _ => false)).length

/-- Number of transcript update-by-id calls in an intent list. -/
def countUpdates (out : List Intent) : Nat :=
  (out.filter (fun i => match i with
    | Intent.updateMessage _ _ _ => true
    | _ => false)).length

/-- The event trace of a run of agent deltas on one stream id. -/
def aDeltaEvs (id : String) (ds : List String) : List CodexEvent :=
  ds.map (fun d => ⟨id, CodexMsg.agent_message_delta d⟩)

/-- Concatenation of a list of delta strings, in arrival order. -/
def concatAll (ds : List String) : String :=
  ds.foldr (fun d acc => d ++ acc) ""

/-- The event trace of a run of reasoning deltas on one stream id. -/
def rDeltaEvs (id : String) (ds : List String) : List CodexEvent :=
  ds.map (fun d => ⟨id, CodexMsg.agent_reasoning_delta d⟩)

/-- The stream-buffer map a channel owns (`agentStreams` /
`reasoningStreams`). -/
def chStreams (ch : Channel) (s : HState) : SMap :=
  match ch with
  | Channel.agent => s.agentStreams
  | Channel.reasoning => s.reasoningStreams

/-- The flush-flag map a channel owns (`agentFlush` / `reasoningFlush`). -/
def chFlush (ch : Channel) (s : HState) : List String :=
  match ch with
  | Channel.agent => s.agentFlush
  | Channel.reasoning => s.reasoningFlush

/-- The fresh-id tag a channel uses in its generated message ids. -/
def chTag : Channel → String
  | Channel.agent => "agent"
  | Channel.reasoning => "reasoning"

/-- The delta event payload of a channel (`agent_message_delta` /
`agent_reasoning_delta`, the latter also standing for
`agent_reasoning_raw_content_delta`, which shares its switch case). -/
def chDeltaMsg (ch : Channel) (d : String) : CodexMsg :=
  match ch with
  | Channel.agent => CodexMsg.agent_message_delta d
  | Channel.reasoning => CodexMsg.agent_reasoning_delta d

/-- The event trace of a run of deltas on one stream id of a channel. -/
def chDeltaEvs (ch : Channel) (id : String) (ds : List String) : List CodexEvent :=
  ds.map (fun d => ⟨id, chDeltaMsg ch d⟩)

end Codexia

namespace Codexia

/-! ### Association-map lemmas -/

theorem mget_mset_self (m : SMap) (k : String) (v : StreamSt) :
    mget (mset m k v) k = some v := by
  induction m with
  | nil => simp [mget, mset]
  | cons p t ih =>
    obtain ⟨a, w⟩ := p
    by_cases h : a = k
    · simp [mget, mset, h]
    · simpa [mget, mset, h] using ih

theorem mget_mset_ne (m : SMap) (k k' : String) (v : StreamSt) (h : k' ≠ k) :
    mget (mset m k v) k' = mget m k' := by
  induction m with
  | nil => simp [mget, mset, Ne.symm h]
  | cons p t ih =>
    obtain ⟨a, w⟩ := p
    by_cases ha : a = k
    · simp [mget, mset, ha, Ne.symm h]
    · by_cases ha' : a = k'
      · simp [mget, mset, ha, ha', h]
      · simpa [mget, mset, ha, ha'] using ih

theorem mget_mdel_self (m : SMap) (k : String) :
    mget (mdel m k) k = none := by
  induction m with
  | nil => simp [mget, mdel]
  | cons p t ih =>
    obtain ⟨a, w⟩ := p
    by_cases h : a = k
    · simpa [mget, mdel, h] using ih
    · simpa [mget, mdel, h] using ih

theorem mget_mdel_ne (m : SMap) (k k' : String) (h : k' ≠ k) :
    mget (mdel m k) k' = mget m k' := by
  induction m with
  | nil => simp [mget, mdel]
  | cons p t ih =>
    obtain ⟨a, w⟩ := p
    by_cases ha : a = k
    · simpa [mget, mdel, ha, Ne.symm h] using ih
    · by_cases ha' : a = k'
      · simp [mget, mdel, ha, ha', h]
      · simpa [mget, mdel, ha, ha'] using ih

end Codexia

namespace Codexia

/-! ### C1 — turn isolation -/

/-- C1, counterexample: an agent stream-buffer entry and its pending flush
created during turn N survive a `turn_complete` followed by a
`turn_started`, so per-turn stream state is observable in turn N+1,
contradicting the claimed isolation invariant. -/
theorem turn_isolation_counterexample :
    mget ((handleEvents "S"
        [⟨"s1", CodexMsg.agent_message_delta "a"⟩,
         ⟨"e", CodexMsg.turn_complete⟩,
         ⟨"e", CodexMsg.turn_started⟩] initState).1).agentStreams "s1"
      = some ⟨"S-agent-0", "a"⟩
    ∧ ((handleEvents "S"
        [⟨"s1", CodexMsg.agent_message_delta "a"⟩,
         ⟨"e", CodexMsg.turn_complete⟩,
         ⟨"e", CodexMsg.turn_started⟩] initState).1).agentFlush.contains "s1"
      = true := ⟨rfl, rfl⟩

/-- C1 (amended): across a turn-end event followed by a turn-start event
only the diff-dedup set is cleared (together with the legacy streaming
refs); every agent/reasoning/exec stream-buffer entry and every pending
flush present before the boundary persists unchanged into turn N+1. -/
theorem turn_isolation_amended (sid id id' : String) (s : HState) :
    ((handleEvents sid [⟨id, CodexMsg.turn_complete⟩,
        ⟨id', CodexMsg.turn_started⟩] s).1).shownDiffs = []
    ∧ ((handleEvents sid [⟨id, CodexMsg.turn_complete⟩,
        ⟨id', CodexMsg.turn_started⟩] s).1).agentStreams = s.agentStreams
    ∧ ((handleEvents sid [⟨id, CodexMsg.turn_complete⟩,
        ⟨id', CodexMsg.turn_started⟩] s).1).reasoningStreams = s.reasoningStreams
    ∧ ((handleEvents sid [⟨id, CodexMsg.turn_complete⟩,
        ⟨id', CodexMsg.turn_started⟩] s).1).execStreams = s.execStreams
    ∧ ((handleEvents sid [⟨id, CodexMsg.turn_complete⟩,
        ⟨id', CodexMsg.turn_started⟩] s).1).agentFlush = s.agentFlush
    ∧ ((handleEvents sid [⟨id, CodexMsg.turn_complete⟩,
        ⟨id', CodexMsg.turn_started⟩] s).1).reasoningFlush = s.reasoningFlush := by
  refine ⟨rfl, rfl, rfl, rfl, rfl, rfl⟩

/-! ### C2 — turn-end finalization -/

/-- C2, counterexample: with an agent stream still open and a diff already
shown, `turn_complete` emits only `setLoading false` — no transcript
update marks the open stream's entry as finished, and the stream-buffer
entry survives; `task_complete` moreover leaves the diff-dedup set
untouched. -/
theorem turn_end_finalize_counterexample :
    mget ((handleEvents "S"
        [⟨"s1", CodexMsg.agent_message_delta "a"⟩,
         ⟨"e", CodexMsg.turn_diff "D"⟩] initState).1).agentStreams "s1"
      = some ⟨"S-agent-0", "a"⟩
    ∧ (handleCodexEvent "S" ⟨"e", CodexMsg.turn_complete⟩
        (handleEvents "S"
          [⟨"s1", CodexMsg.agent_message_delta "a"⟩,
           ⟨"e", CodexMsg.turn_diff "D"⟩] initState).1).2
      = [Intent.setLoading false]
    ∧ ((handleCodexEvent "S" ⟨"e", CodexMsg.turn_complete⟩
        (handleEvents "S"
          [⟨"s1", CodexMsg.agent_message_delta "a"⟩,
           ⟨"e", CodexMsg.turn_diff "D"⟩] initState).1).1).agentStreams
      = (handleEvents "S"
          [⟨"s1", CodexMsg.agent_message_delta "a"⟩,
           ⟨"e", CodexMsg.turn_diff "D"⟩] initState).1.agentStreams
    ∧ ((handleCodexEvent "S" ⟨"e", CodexMsg.task_complete⟩
        (handleEvents "S"
          [⟨"s1", CodexMsg.agent_message_delta "a"⟩,
           ⟨"e", CodexMsg.turn_diff "D"⟩] initState).1).1).shownDiffs
      = ["D"] := ⟨rfl, rfl, rfl, rfl⟩

/-- C2 (amended): a `turn_complete` event sets the loading indicator false
and clears the diff-dedup set but issues no other store call — in
particular it never finalizes still-open agent or reasoning streams, whose
entries persist; `task_complete` only sets the loading indicator false and
does not even clear the diff-dedup set. -/
theorem turn_end_behavior (sid id : String) (s : HState) :
    handleCodexEvent sid ⟨id, CodexMsg.turn_complete⟩ s
      = ({ s with currentStreamingMessageId := none, shownDiffs := [] },
         [Intent.setLoading false])
    ∧ handleCodexEvent sid ⟨id, CodexMsg.task_complete⟩ s
      = ({ s with currentStreamingMessageId := none },
         [Intent.setLoading false]) := ⟨rfl, rfl⟩

/-! ### C4 — replaceOrEmit on a fresh stream id -/

/-- C4, counterexample: an `agent_message` event whose text is the empty
string and whose stream id has no entry emits no transcript append at all
(the handler drops falsy text), refuting the claim for the empty string. -/
theorem replace_or_emit_empty_counterexample :
    ¬ countAdds (handleCodexEvent "S"
        ⟨"e1", CodexMsg.agent_message ""⟩ initState).2 = 1 := by
  decide

/-- C4 (amended): for every stream id with no existing stream-buffer entry
and every **non-empty** fullText, an `agent_message` event emits exactly
one new transcript entry whose content equals fullText, and registers the
stream entry with that buffer. -/
theorem replace_or_emit_new (sid id text : String) (s : HState)
    (hne : text ≠ "") (hnone : mget s.agentStreams id = none) :
    (handleCodexEvent sid ⟨id, CodexMsg.agent_message text⟩ s).2
      = [Intent.addMessage (freshId sid "agent" s.clock) "agent" text false]
    ∧ mget (handleCodexEvent sid ⟨id, CodexMsg.agent_message text⟩ s).1.agentStreams id
      = some ⟨freshId sid "agent" s.clock, text⟩ := by
  simp [handleCodexEvent, hne, hnone, mget_mset_self]

/-- C4 witness: the amended theorem instantiated at text `"hi"` on the
initial state. -/
theorem replace_or_emit_new_witness :
    (handleCodexEvent "S" ⟨"e1", CodexMsg.agent_message "hi"⟩ initState).2
      = [Intent.addMessage "S-agent-0" "agent" "hi" false] :=
  (replace_or_emit_new "S" "e1" "hi" initState (by decide) rfl).1

/-! ### C10 — reasoning-final always drops the loading flag -/

/-- C10: every reasoning-final event issues `setLoading false`,
unconditionally — whether or not a stream-buffer entry exists for the id
and regardless of any other state. -/
theorem reasoning_final_sets_loading_false (sid id text : String) (s : HState) :
    Intent.setLoading false ∈
      (handleCodexEvent sid ⟨id, CodexMsg.agent_reasoning text⟩ s).2 := by
  rcases hm : mget s.reasoningStreams id with _ | st
  · by_cases ht : text = "" <;> simp [handleCodexEvent, hm, ht]
  · simp [handleCodexEvent, hm]

end Codexia

namespace Codexia

/-! ### C3 — idempotent resend -/

/-- C3, counterexample: two consecutive `agent_message` events with the
same id and the same **empty** text produce zero transcript appends, not
exactly one — the handler drops falsy text before consulting the stream
map, so the claim fails for the empty string. -/
theorem idempotent_resend_counterexample :
    ¬ countAdds (handleEvents "S"
        [⟨"e2", CodexMsg.agent_message ""⟩,
         ⟨"e2", CodexMsg.agent_message ""⟩] initState).2 = 1 := by
  decide

/-- C3 (amended): for every stream id and every **non-empty** text,
starting from any state in which the id's agent stream buffer is not
already that text, two consecutive `agent_message` events with that id and
text produce exactly one transcript append whose content is the text, and
the second event changes nothing (state unchanged, no intents). -/
theorem idempotent_resend (sid id text : String) (s : HState)
    (hne : text ≠ "")
    (hbuf : ∀ st, mget s.agentStreams id = some st → st.buffer ≠ text) :
    (handleCodexEvent sid ⟨id, CodexMsg.agent_message text⟩ s).2
      = [Intent.addMessage (freshId sid "agent" s.clock) "agent" text false]
    ∧ handleCodexEvent sid ⟨id, CodexMsg.agent_message text⟩
        (handleCodexEvent sid ⟨id, CodexMsg.agent_message text⟩ s).1
      = ((handleCodexEvent sid ⟨id, CodexMsg.agent_message text⟩ s).1, []) := by
  rcases hm : mget s.agentStreams id with _ | st
  · simp [handleCodexEvent, hne, hm, mget_mset_self]
  · have hb : st.buffer ≠ text := hbuf st hm
    simp [handleCodexEvent, hne, hm, Ne.symm hb, mget_mset_self]

/-- C3 witness: the amended theorem instantiated at text `"same"` on the
initial state (no prior entry for the id, hence no buffer equal to the
text). -/
theorem idempotent_resend_witness :
    (handleCodexEvent "S" ⟨"e3", CodexMsg.agent_message "same"⟩ initState).2
      = [Intent.addMessage "S-agent-0" "agent" "same" false]
    ∧ handleCodexEvent "S" ⟨"e3", CodexMsg.agent_message "same"⟩
        (handleCodexEvent "S" ⟨"e3", CodexMsg.agent_message "same"⟩ initState).1
      = ((handleCodexEvent "S" ⟨"e3", CodexMsg.agent_message "same"⟩ initState).1, []) :=
  idempotent_resend "S" "e3" "same" initState (by decide) (fun st h => nomatch h)

/-! ### C6 — exec deltas without a stream entry -/

/-- C6, counterexample: the first exec output delta for a call id with no
stream entry creates nothing and emits nothing — the handler looks the
call id up and silently ignores the chunk, refuting the claimed
create-on-first-delta contract for the exec channel. -/
theorem exec_delta_no_entry_counterexample :
    handleCodexEvent "S" ⟨"e", CodexMsg.exec_command_output_delta "c9" [104]⟩ initState
      = (initState, []) := rfl

/-- C6 (amended): an exec output delta appends only when a stream entry
for the call id already exists (one is created only by
`exec_command_begin`); a delta for an unknown call id is ignored
entirely — no stream entry is created, no transcript intent issued, and
the state is unchanged. -/
theorem exec_delta_ignored_without_entry (sid id callId : String)
    (chunk : List Nat) (s : HState)
    (h : mget s.execStreams callId = none) :
    handleCodexEvent sid ⟨id, CodexMsg.exec_command_output_delta callId chunk⟩ s
      = (s, []) := by
  simp [handleCodexEvent, h]

/-- C6 witness: the amended theorem at the initial state, which has no
exec stream entries. -/
theorem exec_delta_ignored_without_entry_witness :
    handleCodexEvent "S" ⟨"e", CodexMsg.exec_command_output_delta "c2" [1, 2]⟩ initState
      = (initState, []) :=
  exec_delta_ignored_without_entry "S" "e" "c2" [1, 2] initState rfl

/-! ### C8 — diff dedup -/

/-- C8: for a non-empty diff text not yet shown this turn, the first
`turn_diff` emits exactly one transcript entry and records the text; an
identical repeat within the turn is suppressed with no state change; a
turn boundary (`turn_started` or `turn_complete`) empties the set, after
which the same diff is shown again. -/
theorem diff_dedup (sid id D : String) (s : HState) (hne : D ≠ "")
    (hfresh : s.shownDiffs.contains D = false) :
    (handleCodexEvent sid ⟨id, CodexMsg.turn_diff D⟩ s).2
      = [Intent.addMessage (freshId sid "diff" s.clock) "system" (diffContent D) false]
    ∧ ((handleCodexEvent sid ⟨id, CodexMsg.turn_diff D⟩ s).1).shownDiffs.contains D = true
    ∧ handleCodexEvent sid ⟨id, CodexMsg.turn_diff D⟩
        (handleCodexEvent sid ⟨id, CodexMsg.turn_diff D⟩ s).1
      = ((handleCodexEvent sid ⟨id, CodexMsg.turn_diff D⟩ s).1, [])
    ∧ countAdds (handleCodexEvent sid ⟨id, CodexMsg.turn_diff D⟩
        ((handleCodexEvent sid ⟨id, CodexMsg.turn_started⟩
          (handleCodexEvent sid ⟨id, CodexMsg.turn_diff D⟩ s).1).1)).2 = 1
    ∧ countAdds (handleCodexEvent sid ⟨id, CodexMsg.turn_diff D⟩
        ((handleCodexEvent sid ⟨id, CodexMsg.turn_complete⟩
          (handleCodexEvent sid ⟨id, CodexMsg.turn_diff D⟩ s).1).1)).2 = 1 := by
  have hmem : D ∉ s.shownDiffs := by simpa using hfresh
  refine ⟨?_, ?_, ?_, ?_, ?_⟩ <;>
    simp [handleCodexEvent, hne, hmem, countAdds]

/-- C8 witness: the dedup scenario run on diff text `"d"` from the initial
state. -/
theorem diff_dedup_witness :
    (handleCodexEvent "S" ⟨"e", CodexMsg.turn_diff "d"⟩ initState).2
      = [Intent.addMessage "S-diff-0" "system" (diffContent "d") false]
    ∧ ((handleCodexEvent "S" ⟨"e", CodexMsg.turn_diff "d"⟩ initState).1).shownDiffs.contains "d" = true
    ∧ handleCodexEvent "S" ⟨"e", CodexMsg.turn_diff "d"⟩
        (handleCodexEvent "S" ⟨"e", CodexMsg.turn_diff "d"⟩ initState).1
      = ((handleCodexEvent "S" ⟨"e", CodexMsg.turn_diff "d"⟩ initState).1, [])
    ∧ countAdds (handleCodexEvent "S" ⟨"e", CodexMsg.turn_diff "d"⟩
        ((handleCodexEvent "S" ⟨"e", CodexMsg.turn_started⟩
          (handleCodexEvent "S" ⟨"e", CodexMsg.turn_diff "d"⟩ initState).1).1)).2 = 1
    ∧ countAdds (handleCodexEvent "S" ⟨"e", CodexMsg.turn_diff "d"⟩
        ((handleCodexEvent "S" ⟨"e", CodexMsg.turn_complete⟩
          (handleCodexEvent "S" ⟨"e", CodexMsg.turn_diff "d"⟩ initState).1).1)).2 = 1 :=
  diff_dedup "S" "e" "d" initState (by decide) rfl

/-! ### C9 — exec chunk decoding -/

end Codexia

namespace Codexia

/-! ### C7 — exec lifecycle scenario -/

/-- C7: from any state, the sequence `exec_command_begin` (callId `c1`,
command `ls -la`, cwd `/tmp`), two output deltas carrying the bytes of
`file1\n` and `file2\n`, and `exec_command_end` with exit code 0 issues
exactly one transcript append, streams each chunk into it, and finally
rewrites it to `cwd: /tmp\n$ ls -la\nfile1\nfile2\n\nexit 0` with the
streaming flag false, destroying the exec stream entry. -/
theorem exec_lifecycle (sid id : String) (s : HState) :
    (handleEvents sid
      [⟨id, CodexMsg.exec_command_begin "c1" ["ls", "-la"] "/tmp"⟩,
       ⟨id, CodexMsg.exec_command_output_delta "c1" [102, 105, 108, 101, 49, 10]⟩,
       ⟨id, CodexMsg.exec_command_output_delta "c1" [102, 105, 108, 101, 50, 10]⟩,
       ⟨id, CodexMsg.exec_command_end "c1" 0⟩] s).2
      = [Intent.addMessage (freshId sid "exec-c1" s.clock) "system"
           "cwd: /tmp\n$ ls -la\n" true,
         Intent.setLoading true,
         Intent.updateMessage (freshId sid "exec-c1" s.clock)
           (some "cwd: /tmp\n$ ls -la\nfile1\n") none,
         Intent.updateMessage (freshId sid "exec-c1" s.clock)
           (some "cwd: /tmp\n$ ls -la\nfile1\nfile2\n") none,
         Intent.updateMessage (freshId sid "exec-c1" s.clock)
           (some "cwd: /tmp\n$ ls -la\nfile1\nfile2\n\nexit 0") (some false),
         Intent.setLoading false]
    ∧ mget ((handleEvents sid
      [⟨id, CodexMsg.exec_command_begin "c1" ["ls", "-la"] "/tmp"⟩,
       ⟨id, CodexMsg.exec_command_output_delta "c1" [102, 105, 108, 101, 49, 10]⟩,
       ⟨id, CodexMsg.exec_command_output_delta "c1" [102, 105, 108, 101, 50, 10]⟩,
       ⟨id, CodexMsg.exec_command_end "c1" 0⟩] s).1).execStreams "c1" = none := by
  have e0 : execHeader ["ls", "-la"] "/tmp" = "cwd: /tmp\n$ ls -la\n" := rfl
  have d1 : utf8Decode [102, 105, 108, 101, 49, 10] = "file1\n" := rfl
  have d2 : utf8Decode [102, 105, 108, 101, 50, 10] = "file2\n" := rfl
  have a1 : "cwd: /tmp\n$ ls -la\n" ++ "file1\n" = "cwd: /tmp\n$ ls -la\nfile1\n" := rfl
  have a2 : "cwd: /tmp\n$ ls -la\nfile1\n" ++ "file2\n" = "cwd: /tmp\n$ ls -la\nfile1\nfile2\n" := rfl
  have a3 : "cwd: /tmp\n$ ls -la\nfile1\nfile2\n" ++ "\nexit " ++ toString (0 : Int)
      = "cwd: /tmp\n$ ls -la\nfile1\nfile2\n\nexit 0" := rfl
  have a4 : "cwd: /tmp\n$ ls -la\nfile1\nfile2\n\nexit " ++ toString (0 : Int)
      = "cwd: /tmp\n$ ls -la\nfile1\nfile2\n\nexit 0" := rfl
  constructor <;>
    simp [handleEvents, handleCodexEvent, e0, d1, d2, a1, a2, a3, a4,
      mget_mset_self, mget_mdel_self]

end Codexia

namespace Codexia

/-! ### C5 — delta coalescing -/

/-- One agent delta on a stream that already exists and already has a
pending flush: the buffer grows, nothing else changes, no intent is
issued. -/
theorem agent_delta_step (sid id d : String) (s : HState) (mid b : String)
    (hd : d ≠ "")
    (hent : mget s.agentStreams id = some ⟨mid, b⟩)
    (hfl : s.agentFlush.contains id = true) :
    handleCodexEvent sid ⟨id, CodexMsg.agent_message_delta d⟩ s
      = ({ s with agentStreams := mset s.agentStreams id ⟨mid, b ++ d⟩ }, []) := by
  have hmem : id ∈ s.agentFlush := by simpa using hfl
  simp [handleCodexEvent, hent, hd, scheduleFlush, hmem]

/-- A run of non-empty agent deltas on an existing stream with a pending
flush issues no intents and concatenates the deltas onto the buffer,
leaving flush flags and clock unchanged. -/
theorem agent_delta_run (sid id : String) (ds : List String) (s : HState) (mid b : String)
    (hne : ∀ d ∈ ds, d ≠ "")
    (hent : mget s.agentStreams id = some ⟨mid, b⟩)
    (hfl : s.agentFlush.contains id = true) :
    (handleEvents sid (aDeltaEvs id ds) s).2 = []
    ∧ mget (handleEvents sid (aDeltaEvs id ds) s).1.agentStreams id
        = some ⟨mid, b ++ concatAll ds⟩
    ∧ (handleEvents sid (aDeltaEvs id ds) s).1.agentFlush = s.agentFlush
    ∧ (handleEvents sid (aDeltaEvs id ds) s).1.clock = s.clock := by
  induction ds generalizing s b with
  | nil =>
      simp [handleEvents, aDeltaEvs, concatAll, hent]
  | cons d ds ih =>
      have hd : d ≠ "" := hne d (List.mem_cons_self d ds)
      have hne' : ∀ x ∈ ds, x ≠ "" := fun x hx => hne x (List.mem_cons_of_mem d hx)
      have hstep := agent_delta_step sid id d s mid b hd hent hfl
      have hent' : mget (mset s.agentStreams id ⟨mid, b ++ d⟩) id = some ⟨mid, b ++ d⟩ :=
        mget_mset_self _ _ _
      have := ih ({ s with agentStreams := mset s.agentStreams id ⟨mid, b ++ d⟩ })
        (b ++ d) hne' hent' hfl
      simpa [handleEvents, aDeltaEvs, hstep, concatAll, String.append_assoc] using this



/-- The flush tick on the agent channel, when the stream exists: drop the
pending flag and write the stream's current buffer. -/
theorem fireFlush_agent_some (id : String) (s : HState) (st : StreamSt)
    (h : mget s.agentStreams id = some st) :
    fireFlush Channel.agent id s
      = ({ s with agentFlush := s.agentFlush.filter (· != id) },
         [Intent.updateMessage st.messageId (some st.buffer) none]) := by
  simp [fireFlush, h]

/-- One agent delta on an existing stream with **no** pending flush:
the buffer grows and a new flush is scheduled. -/
theorem agent_delta_step_schedule (sid id d : String) (s : HState) (mid b : String)
    (hd : d ≠ "")
    (hent : mget s.agentStreams id = some ⟨mid, b⟩)
    (hfl : s.agentFlush.contains id = false) :
    handleCodexEvent sid ⟨id, CodexMsg.agent_message_delta d⟩ s
      = ({ s with agentStreams := mset s.agentStreams id ⟨mid, b ++ d⟩
                  agentFlush := id :: s.agentFlush }, []) := by
  have hmem : id ∉ s.agentFlush := by simpa using hfl
  simp [handleCodexEvent, hent, hd, scheduleFlush, hmem]

/-- The coalescing scenario on the agent channel: starting with no stream
entry and no pending flush for the id, a burst of non-empty deltas
`d0 :: ds` before the flush tick issues only the initial streaming append
(zero update calls), leaves exactly one pending flush for the key, and
the tick then issues exactly one update carrying the concatenation of the
whole burst (the buffer at flush time); the flag is then clear, and a
further delta `d'` starts a second cycle whose tick issues a second
update with the extended concatenation. -/
theorem agent_delta_coalescing (sid id d0 d' : String) (ds : List String) (s : HState)
    (hd0 : d0 ≠ "") (hne : ∀ d ∈ ds, d ≠ "") (hd' : d' ≠ "")
    (hent : mget s.agentStreams id = none)
    (hfl : s.agentFlush.contains id = false) :
    (handleEvents sid (aDeltaEvs id (d0 :: ds)) s).2
      = [Intent.addMessage (freshId sid "agent" s.clock) "agent" "" true]
    ∧ (handleEvents sid (aDeltaEvs id (d0 :: ds)) s).1.agentFlush.count id = 1
    ∧ (fireFlush Channel.agent id (handleEvents sid (aDeltaEvs id (d0 :: ds)) s).1).2
      = [Intent.updateMessage (freshId sid "agent" s.clock)
          (some (concatAll (d0 :: ds))) none]
    ∧ ((fireFlush Channel.agent id
        (handleEvents sid (aDeltaEvs id (d0 :: ds)) s).1).1).agentFlush.contains id = false
    ∧ ((handleCodexEvent sid ⟨id, CodexMsg.agent_message_delta d'⟩
        (fireFlush Channel.agent id
          (handleEvents sid (aDeltaEvs id (d0 :: ds)) s).1).1).1).agentFlush.count id = 1
    ∧ (fireFlush Channel.agent id
        ((handleCodexEvent sid ⟨id, CodexMsg.agent_message_delta d'⟩
          (fireFlush Channel.agent id
            (handleEvents sid (aDeltaEvs id (d0 :: ds)) s).1).1).1)).2
      = [Intent.updateMessage (freshId sid "agent" s.clock)
          (some (concatAll (d0 :: ds) ++ d')) none] := by
  have hmem0 : id ∉ s.agentFlush := by simpa using hfl
  have hcount0 : s.agentFlush.count id = 0 := List.count_eq_zero.mpr hmem0
  have hfilter : s.agentFlush.filter (· != id) = s.agentFlush := by
    rw [List.filter_eq_self]
    intro b hb
    simp only [bne_iff_ne, ne_eq, decide_eq_true_eq]
    intro hba
    exact hmem0 (hba ▸ hb)
  -- the first delta: create the entry, append d0, schedule the flush
  have h1 : handleCodexEvent sid ⟨id, CodexMsg.agent_message_delta d0⟩ s
      = ({ s with
            agentStreams :=
              mset (mset s.agentStreams id ⟨freshId sid "agent" s.clock, ""⟩) id
                ⟨freshId sid "agent" s.clock, "" ++ d0⟩
            agentFlush := id :: s.agentFlush
            clock := s.clock + 1 },
         [Intent.addMessage (freshId sid "agent" s.clock) "agent" "" true]) := by
    simp [handleCodexEvent, hent, hd0, scheduleFlush, hfl, hmem0, mget_mset_self]
  have hent1 : mget (mset (mset s.agentStreams id ⟨freshId sid "agent" s.clock, ""⟩) id
      ⟨freshId sid "agent" s.clock, "" ++ d0⟩) id
      = some ⟨freshId sid "agent" s.clock, "" ++ d0⟩ := mget_mset_self _ _ _
  have hrun := agent_delta_run sid id ds
    ({ s with
        agentStreams :=
          mset (mset s.agentStreams id ⟨freshId sid "agent" s.clock, ""⟩) id
            ⟨freshId sid "agent" s.clock, "" ++ d0⟩
        agentFlush := id :: s.agentFlush
        clock := s.clock + 1 })
    (freshId sid "agent" s.clock) ("" ++ d0) hne hent1 (by simp)
  obtain ⟨hout, hget, hflush, hclock⟩ := hrun
  -- facts about the state after all deltas
  have hE2 : (handleEvents sid (aDeltaEvs id (d0 :: ds)) s).2
      = [Intent.addMessage (freshId sid "agent" s.clock) "agent" "" true] := by
    simp [aDeltaEvs, handleEvents, h1]
    simpa [aDeltaEvs] using hout
  have hEget : mget (handleEvents sid (aDeltaEvs id (d0 :: ds)) s).1.agentStreams id
      = some ⟨freshId sid "agent" s.clock, "" ++ d0 ++ concatAll ds⟩ := by
    simp [aDeltaEvs, handleEvents, h1]
    simpa [aDeltaEvs] using hget
  have hEflush : (handleEvents sid (aDeltaEvs id (d0 :: ds)) s).1.agentFlush
      = id :: s.agentFlush := by
    simp [aDeltaEvs, handleEvents, h1]
    simpa [aDeltaEvs] using hflush
  have hconcat : "" ++ d0 ++ concatAll ds = concatAll (d0 :: ds) := by
    simp [concatAll]
  have hconcat2 : concatAll (d0 :: ds) = d0 ++ concatAll ds := rfl
  -- the flush tick after the delta burst
  have hF := fireFlush_agent_some id (handleEvents sid (aDeltaEvs id (d0 :: ds)) s).1
    ⟨freshId sid "agent" s.clock, "" ++ d0 ++ concatAll ds⟩ hEget
  have hFflush : (fireFlush Channel.agent id
      (handleEvents sid (aDeltaEvs id (d0 :: ds)) s).1).1.agentFlush = s.agentFlush := by
    rw [hF]
    simp [hEflush, hfilter]
  have hFget : mget (fireFlush Channel.agent id
      (handleEvents sid (aDeltaEvs id (d0 :: ds)) s).1).1.agentStreams id
      = some ⟨freshId sid "agent" s.clock, "" ++ d0 ++ concatAll ds⟩ := by
    rw [hF]
    simpa using hEget
  have hFfl : (fireFlush Channel.agent id
      (handleEvents sid (aDeltaEvs id (d0 :: ds)) s).1).1.agentFlush.contains id = false := by
    rw [hFflush]
    exact hfl
  -- the post-tick delta: a fresh flush cycle
  have hG := agent_delta_step_schedule sid id d'
    (fireFlush Channel.agent id (handleEvents sid (aDeltaEvs id (d0 :: ds)) s).1).1
    (freshId sid "agent" s.clock) ("" ++ d0 ++ concatAll ds) hd' hFget hFfl
  have hGget : mget (handleCodexEvent sid ⟨id, CodexMsg.agent_message_delta d'⟩
      (fireFlush Channel.agent id
        (handleEvents sid (aDeltaEvs id (d0 :: ds)) s).1).1).1.agentStreams id
      = some ⟨freshId sid "agent" s.clock, "" ++ d0 ++ concatAll ds ++ d'⟩ := by
    rw [hG]
    simpa using mget_mset_self _ id _
  have hG2 := fireFlush_agent_some id
    (handleCodexEvent sid ⟨id, CodexMsg.agent_message_delta d'⟩
      (fireFlush Channel.agent id
        (handleEvents sid (aDeltaEvs id (d0 :: ds)) s).1).1).1
    ⟨freshId sid "agent" s.clock, "" ++ d0 ++ concatAll ds ++ d'⟩ hGget
  refine ⟨hE2, ?_, ?_, hFfl, ?_, ?_⟩
  · rw [hEflush]
    simp [hcount0]
  · rw [hF]
    simp [hconcat2]
  · rw [hG, hFflush]
    simp [hcount0]
  · rw [hG2]
    simp [hconcat2, String.append_assoc]

/-- One reasoning delta on a stream that already exists and already has a
pending flush: the buffer grows, nothing else changes, no intent is
issued. -/
theorem reasoning_delta_step (sid id d : String) (s : HState) (mid b : String)
    (hd : d ≠ "")
    (hent : mget s.reasoningStreams id = some ⟨mid, b⟩)
    (hfl : s.reasoningFlush.contains id = true) :
    handleCodexEvent sid ⟨id, CodexMsg.agent_reasoning_delta d⟩ s
      = ({ s with reasoningStreams := mset s.reasoningStreams id ⟨mid, b ++ d⟩ }, []) := by
  have hmem : id ∈ s.reasoningFlush := by simpa using hfl
  simp [handleCodexEvent, hent, hd, scheduleFlush, hmem]

/-- A run of non-empty reasoning deltas on an existing stream with a pending
flush issues no intents and concatenates the deltas onto the buffer,
leaving flush flags and clock unchanged. -/
theorem reasoning_delta_run (sid id : String) (ds : List String) (s : HState) (mid b : String)
    (hne : ∀ d ∈ ds, d ≠ "")
    (hent : mget s.reasoningStreams id = some ⟨mid, b⟩)
    (hfl : s.reasoningFlush.contains id = true) :
    (handleEvents sid (rDeltaEvs id ds) s).2 = []
    ∧ mget (handleEvents sid (rDeltaEvs id ds) s).1.reasoningStreams id
        = some ⟨mid, b ++ concatAll ds⟩
    ∧ (handleEvents sid (rDeltaEvs id ds) s).1.reasoningFlush = s.reasoningFlush
    ∧ (handleEvents sid (rDeltaEvs id ds) s).1.clock = s.clock := by
  induction ds generalizing s b with
  | nil =>
      simp [handleEvents, rDeltaEvs, concatAll, hent]
  | cons d ds ih =>
      have hd : d ≠ "" := hne d (List.mem_cons_self d ds)
      have hne' : ∀ x ∈ ds, x ≠ "" := fun x hx => hne x (List.mem_cons_of_mem d hx)
      have hstep := reasoning_delta_step sid id d s mid b hd hent hfl
      have hent' : mget (mset s.reasoningStreams id ⟨mid, b ++ d⟩) id = some ⟨mid, b ++ d⟩ :=
        mget_mset_self _ _ _
      have := ih ({ s with reasoningStreams := mset s.reasoningStreams id ⟨mid, b ++ d⟩ })
        (b ++ d) hne' hent' hfl
      simpa [handleEvents, rDeltaEvs, hstep, concatAll, String.append_assoc] using this



/-- The flush tick on the reasoning channel, when the stream exists: drop the
pending flag and write the stream's current buffer. -/
theorem fireFlush_reasoning_some (id : String) (s : HState) (st : StreamSt)
    (h : mget s.reasoningStreams id = some st) :
    fireFlush Channel.reasoning id s
      = ({ s with reasoningFlush := s.reasoningFlush.filter (· != id) },
         [Intent.updateMessage st.messageId (some st.buffer) none]) := by
  simp [fireFlush, h]

/-- One reasoning delta on an existing stream with **no** pending flush:
the buffer grows and a new flush is scheduled. -/
theorem reasoning_delta_step_schedule (sid id d : String) (s : HState) (mid b : String)
    (hd : d ≠ "")
    (hent : mget s.reasoningStreams id = some ⟨mid, b⟩)
    (hfl : s.reasoningFlush.contains id = false) :
    handleCodexEvent sid ⟨id, CodexMsg.agent_reasoning_delta d⟩ s
      = ({ s with reasoningStreams := mset s.reasoningStreams id ⟨mid, b ++ d⟩
                  reasoningFlush := id :: s.reasoningFlush }, []) := by
  have hmem : id ∉ s.reasoningFlush := by simpa using hfl
  simp [handleCodexEvent, hent, hd, scheduleFlush, hmem]

/-- The coalescing scenario on the reasoning channel: starting with no stream
entry and no pending flush for the id, a burst of non-empty deltas
`d0 :: ds` before the flush tick issues only the initial streaming append
(zero update calls), leaves exactly one pending flush for the key, and
the tick then issues exactly one update carrying the concatenation of the
whole burst (the buffer at flush time); the flag is then clear, and a
further delta `d'` starts a second cycle whose tick issues a second
update with the extended concatenation. -/
theorem reasoning_delta_coalescing (sid id d0 d' : String) (ds : List String) (s : HState)
    (hd0 : d0 ≠ "") (hne : ∀ d ∈ ds, d ≠ "") (hd' : d' ≠ "")
    (hent : mget s.reasoningStreams id = none)
    (hfl : s.reasoningFlush.contains id = false) :
    (handleEvents sid (rDeltaEvs id (d0 :: ds)) s).2
      = [Intent.addMessage (freshId sid "reasoning" s.clock) "agent" "" true]
    ∧ (handleEvents sid (rDeltaEvs id (d0 :: ds)) s).1.reasoningFlush.count id = 1
    ∧ (fireFlush Channel.reasoning id (handleEvents sid (rDeltaEvs id (d0 :: ds)) s).1).2
      = [Intent.updateMessage (freshId sid "reasoning" s.clock)
          (some (concatAll (d0 :: ds))) none]
    ∧ ((fireFlush Channel.reasoning id
        (handleEvents sid (rDeltaEvs id (d0 :: ds)) s).1).1).reasoningFlush.contains id = false
    ∧ ((handleCodexEvent sid ⟨id, CodexMsg.agent_reasoning_delta d'⟩
        (fireFlush Channel.reasoning id
          (handleEvents sid (rDeltaEvs id (d0 :: ds)) s).1).1).1).reasoningFlush.count id = 1
    ∧ (fireFlush Channel.reasoning id
        ((handleCodexEvent sid ⟨id, CodexMsg.agent_reasoning_delta d'⟩
          (fireFlush Channel.reasoning id
            (handleEvents sid (rDeltaEvs id (d0 :: ds)) s).1).1).1)).2
      = [Intent.updateMessage (freshId sid "reasoning" s.clock)
          (some (concatAll (d0 :: ds) ++ d')) none] := by
  have hmem0 : id ∉ s.reasoningFlush := by simpa using hfl
  have hcount0 : s.reasoningFlush.count id = 0 := List.count_eq_zero.mpr hmem0
  have hfilter : s.reasoningFlush.filter (· != id) = s.reasoningFlush := by
    rw [List.filter_eq_self]
    intro b hb
    simp only [bne_iff_ne, ne_eq, decide_eq_true_eq]
    intro hba
    exact hmem0 (hba ▸ hb)
  -- the first delta: create the entry, append d0, schedule the flush
  have h1 : handleCodexEvent sid ⟨id, CodexMsg.agent_reasoning_delta d0⟩ s
      = ({ s with
            reasoningStreams :=
              mset (mset s.reasoningStreams id ⟨freshId sid "reasoning" s.clock, ""⟩) id
                ⟨freshId sid "reasoning" s.clock, "" ++ d0⟩
            reasoningFlush := id :: s.reasoningFlush
            clock := s.clock + 1 },
         [Intent.addMessage (freshId sid "reasoning" s.clock) "agent" "" true]) := by
    simp [handleCodexEvent, hent, hd0, scheduleFlush, hfl, hmem0, mget_mset_self]
  have hent1 : mget (mset (mset s.reasoningStreams id ⟨freshId sid "reasoning" s.clock, ""⟩) id
      ⟨freshId sid "reasoning" s.clock, "" ++ d0⟩) id
      = some ⟨freshId sid "reasoning" s.clock, "" ++ d0⟩ := mget_mset_self _ _ _
  have hrun := reasoning_delta_run sid id ds
    ({ s with
        reasoningStreams :=
          mset (mset s.reasoningStreams id ⟨freshId sid "reasoning" s.clock, ""⟩) id
            ⟨freshId sid "reasoning" s.clock, "" ++ d0⟩
        reasoningFlush := id :: s.reasoningFlush
        clock := s.clock + 1 })
    (freshId sid "reasoning" s.clock) ("" ++ d0) hne hent1 (by simp)
  obtain ⟨hout, hget, hflush, hclock⟩ := hrun
  -- facts about the state after all deltas
  have hE2 : (handleEvents sid (rDeltaEvs id (d0 :: ds)) s).2
      = [Intent.addMessage (freshId sid "reasoning" s.clock) "agent" "" true] := by
    simp [rDeltaEvs, handleEvents, h1]
    simpa [rDeltaEvs] using hout
  have hEget : mget (handleEvents sid (rDeltaEvs id (d0 :: ds)) s).1.reasoningStreams id
      = some ⟨freshId sid "reasoning" s.clock, "" ++ d0 ++ concatAll ds⟩ := by
    simp [rDeltaEvs, handleEvents, h1]
    simpa [rDeltaEvs] using hget
  have hEflush : (handleEvents sid (rDeltaEvs id (d0 :: ds)) s).1.reasoningFlush
      = id :: s.reasoningFlush := by
    simp [rDeltaEvs, handleEvents, h1]
    simpa [rDeltaEvs] using hflush
  have hconcat : "" ++ d0 ++ concatAll ds = concatAll (d0 :: ds) := by
    simp [concatAll]
  have hconcat2 : concatAll (d0 :: ds) = d0 ++ concatAll ds := rfl
  -- the flush tick after the delta burst
  have hF := fireFlush_reasoning_some id (handleEvents sid (rDeltaEvs id (d0 :: ds)) s).1
    ⟨freshId sid "reasoning" s.clock, "" ++ d0 ++ concatAll ds⟩ hEget
  have hFflush : (fireFlush Channel.reasoning id
      (handleEvents sid (rDeltaEvs id (d0 :: ds)) s).1).1.reasoningFlush = s.reasoningFlush := by
    rw [hF]
    simp [hEflush, hfilter]
  have hFget : mget (fireFlush Channel.reasoning id
      (handleEvents sid (rDeltaEvs id (d0 :: ds)) s).1).1.reasoningStreams id
      = some ⟨freshId sid "reasoning" s.clock, "" ++ d0 ++ concatAll ds⟩ := by
    rw [hF]
    simpa using hEget
  have hFfl : (fireFlush Channel.reasoning id
      (handleEvents sid (rDeltaEvs id (d0 :: ds)) s).1).1.reasoningFlush.contains id = false := by
    rw [hFflush]
    exact hfl
  -- the post-tick delta: a fresh flush cycle
  have hG := reasoning_delta_step_schedule sid id d'
    (fireFlush Channel.reasoning id (handleEvents sid (rDeltaEvs id (d0 :: ds)) s).1).1
    (freshId sid "reasoning" s.clock) ("" ++ d0 ++ concatAll ds) hd' hFget hFfl
  have hGget : mget (handleCodexEvent sid ⟨id, CodexMsg.agent_reasoning_delta d'⟩
      (fireFlush Channel.reasoning id
        (handleEvents sid (rDeltaEvs id (d0 :: ds)) s).1).1).1.reasoningStreams id
      = some ⟨freshId sid "reasoning" s.clock, "" ++ d0 ++ concatAll ds ++ d'⟩ := by
    rw [hG]
    simpa using mget_mset_self _ id _
  have hG2 := fireFlush_reasoning_some id
    (handleCodexEvent sid ⟨id, CodexMsg.agent_reasoning_delta d'⟩
      (fireFlush Channel.reasoning id
        (handleEvents sid (rDeltaEvs id (d0 :: ds)) s).1).1).1
    ⟨freshId sid "reasoning" s.clock, "" ++ d0 ++ concatAll ds ++ d'⟩ hGget
  refine ⟨hE2, ?_, ?_, hFfl, ?_, ?_⟩
  · rw [hEflush]
    simp [hcount0]
  · rw [hF]
    simp [hconcat2]
  · rw [hG, hFflush]
    simp [hcount0]
  · rw [hG2]
    simp [hconcat2, String.append_assoc]

end Codexia

namespace Codexia

/-- Every event preserves duplicate-freedom of both flush-flag maps:
`scheduleFlush` is the only operation that ever inserts a key, and it
no-ops when the key is already pending, so at most one pending flush per
(channel, stream id) key can ever exist. -/
theorem handle_flush_nodup (sid : String) (e : CodexEvent) (t : HState)
    (ha : t.agentFlush.Nodup) (hr : t.reasoningFlush.Nodup) :
    ((handleCodexEvent sid e t).1).agentFlush.Nodup
    ∧ ((handleCodexEvent sid e t).1).reasoningFlush.Nodup := by
  obtain ⟨id, msg⟩ := e
  cases msg
  case agent_message m =>
    by_cases hm : m = ""
    · simp [handleCodexEvent, hm, ha, hr]
    · rcases hg : mget t.agentStreams id with _ | st
      · simp [handleCodexEvent, hm, hg, ha, hr]
      · by_cases hb : m = st.buffer
        · simp [handleCodexEvent, hm, hg, hb, ha, hr]
        · simp [handleCodexEvent, hm, hg, hb, ha, hr]
  case agent_message_delta d =>
    rcases hg : mget t.agentStreams id with _ | st <;>
      by_cases hd : d = "" <;>
        simp [handleCodexEvent, hg, hd, scheduleFlush, ha, hr] <;>
        split_ifs with hc <;>
        simp_all [List.nodup_cons]
  case agent_reasoning_delta d =>
    rcases hg : mget t.reasoningStreams id with _ | st <;>
      by_cases hd : d = "" <;>
        simp [handleCodexEvent, hg, hd, scheduleFlush, ha, hr] <;>
        split_ifs with hc <;>
        simp_all [List.nodup_cons]
  case agent_reasoning text =>
    rcases hg : mget t.reasoningStreams id with _ | st
    · by_cases ht : text = "" <;> simp [handleCodexEvent, hg, ht, ha, hr]
    · simp [handleCodexEvent, hg, ha, hr]
  case agent_reasoning_section_break =>
    rcases hg : mget t.reasoningStreams id with _ | st <;>
      simp [handleCodexEvent, hg, ha, hr]
  case turn_diff raw =>
    by_cases hraw : raw = ""
    · simp [handleCodexEvent, hraw, ha, hr]
    · by_cases hmem : raw ∈ t.shownDiffs <;>
        simp [handleCodexEvent, hraw, hmem, ha, hr]
  case exec_command_output_delta callId chunk =>
    rcases hg : mget t.execStreams callId with _ | st <;>
      simp [handleCodexEvent, hg, ha, hr]
  case exec_command_end callId exitCode =>
    rcases hg : mget t.execStreams callId with _ | st <;>
      simp [handleCodexEvent, hg, ha, hr]
  all_goals exact ⟨ha, hr⟩

/-- C5: on either channel (agent or reasoning), starting with no stream
entry and no pending flush for the id, a burst of non-empty deltas
`d0 :: ds` before the flush tick issues only the initial streaming append
(zero update calls) and leaves exactly one pending flush for the key; the
tick then issues exactly one update-by-id carrying the concatenation of
the whole burst (the buffer at flush time) and retires the flag; a
further delta `d'` starts a second cycle whose tick issues a second
update with the extended concatenation; and every event preserves the
at-most-one-pending-flush-per-key invariant on both channels. -/
theorem delta_coalescing (ch : Channel) (sid id d0 d' : String)
    (ds : List String) (s : HState)
    (hd0 : d0 ≠ "") (hne : ∀ d ∈ ds, d ≠ "") (hd' : d' ≠ "")
    (hent : mget (chStreams ch s) id = none)
    (hfl : (chFlush ch s).contains id = false) :
    (handleEvents sid (chDeltaEvs ch id (d0 :: ds)) s).2
      = [Intent.addMessage (freshId sid (chTag ch) s.clock) "agent" "" true]
    ∧ (chFlush ch (handleEvents sid (chDeltaEvs ch id (d0 :: ds)) s).1).count id = 1
    ∧ (fireFlush ch id (handleEvents sid (chDeltaEvs ch id (d0 :: ds)) s).1).2
      = [Intent.updateMessage (freshId sid (chTag ch) s.clock)
          (some (concatAll (d0 :: ds))) none]
    ∧ (chFlush ch
        (fireFlush ch id (handleEvents sid (chDeltaEvs ch id (d0 :: ds)) s).1).1).contains id
      = false
    ∧ (chFlush ch (handleCodexEvent sid ⟨id, chDeltaMsg ch d'⟩
        (fireFlush ch id (handleEvents sid (chDeltaEvs ch id (d0 :: ds)) s).1).1).1).count id
      = 1
    ∧ (fireFlush ch id
        ((handleCodexEvent sid ⟨id, chDeltaMsg ch d'⟩
          (fireFlush ch id (handleEvents sid (chDeltaEvs ch id (d0 :: ds)) s).1).1).1)).2
      = [Intent.updateMessage (freshId sid (chTag ch) s.clock)
          (some (concatAll (d0 :: ds) ++ d')) none]
    ∧ (∀ (e : CodexEvent) (t : HState),
        (chFlush Channel.agent t).Nodup → (chFlush Channel.reasoning t).Nodup →
          (chFlush Channel.agent (handleCodexEvent sid e t).1).Nodup
          ∧ (chFlush Channel.reasoning (handleCodexEvent sid e t).1).Nodup) := by
  cases ch
  · obtain ⟨h1, h2, h3, h4, h5, h6⟩ :=
      agent_delta_coalescing sid id d0 d' ds s hd0 hne hd' hent hfl
    exact ⟨h1, h2, h3, h4, h5, h6,
      fun e t hA hR => handle_flush_nodup sid e t hA hR⟩
  · obtain ⟨h1, h2, h3, h4, h5, h6⟩ :=
      reasoning_delta_coalescing sid id d0 d' ds s hd0 hne hd' hent hfl
    exact ⟨h1, h2, h3, h4, h5, h6,
      fun e t hA hR => handle_flush_nodup sid e t hA hR⟩

/-- C5 witness: the burst `"a"`,`"b"`,`"c"` followed by one tick and a
post-tick delta `"d"`, on the reasoning channel from the initial state. -/
theorem delta_coalescing_witness :
    (∀ d ∈ (["b", "c"] : List String), d ≠ "")
    ∧ (fireFlush Channel.reasoning "d"
        (handleEvents "S" (chDeltaEvs Channel.reasoning "d" ("a" :: ["b", "c"])) initState).1).2
      = [Intent.updateMessage "S-reasoning-0" (some "abc") none] :=
  ⟨by decide,
   (delta_coalescing Channel.reasoning "S" "d" "a" "d" ["b", "c"] initState
      (by decide) (by decide) (by decide) rfl rfl).2.2.1⟩

end Codexia
